import Mathlib

/-
  Verification of the chunk_slicer decomposition core (src/chunk_slicer.py).

  Shallow embedding conventions:
  * Python floats are modelled as exact rationals.  None of the verified
    properties hinges on floating-point rounding; the 1e-3 coincidence
    tolerance is four orders of magnitude above any rounding drift of the
    generated coordinates.
  * The Blender collaborators (bpy, bmesh, mathutils) are external to the
    repository.  Their operations are modelled from the specification of the
    collaborator contract: a mesh is its edge list, a half-space clip keeps
    the vertices on the kept side plus the edge/plane intersection points,
    the document is the ordered list of linked objects.
  * Fallible steps (float division by zero in plan building) return Except.
-/

set_option maxRecDepth 8000

attribute [local semireducible] Rat.add Rat.mul Rat.sub Rat.inv

namespace ChunkSlicer

/-- Axis letters, source attribute axes = list of x y z (line 83). -/
inductive Axis
  | x
  | y
  | z
deriving DecidableEq

def Axis.all : List Axis := [Axis.x, Axis.y, Axis.z]

/-- A point of the mesh, one rational coordinate per axis. -/
structure Pt where
  px : ℚ
  py : ℚ
  pz : ℚ
deriving DecidableEq

/-- Dynamic attribute lookup getattr(v.co, axis) of the source. -/
def Pt.get (p : Pt) : Axis → ℚ
  | Axis.x => p.px
  | Axis.y => p.py
  | Axis.z => p.pz

/-- Modelled from the spec: the mesh-editing collaborator exposes the edge set
    with a manifold-edge predicate (spec section 6); an edge is two endpoints
    plus its manifoldness flag, which this core only reads, never computes. -/
structure Edge where
  pa : Pt
  pb : Pt
  manifold : Bool
deriving DecidableEq

/-- A mesh is its edge list (boundary representation as seen by this core). -/
abbrev Mesh := List Edge

/-- Vertex list of a mesh: the endpoints of its edges. -/
def vertsOf (m : Mesh) : List Pt :=
  m.foldr (fun e r => e.pa :: e.pb :: r) []

/-- Minimum of a coordinate list; 0 for the empty list (the Python min would
    raise there; no verified property evaluates it on an empty mesh). -/
def minD : List ℚ → ℚ
  | [] => 0
  | a :: r => r.foldl min a

/-- Maximum of a coordinate list; 0 for the empty list. -/
def maxD : List ℚ → ℚ
  | [] => 0
  | a :: r => r.foldl max a

/-- Coordinates of all vertices of a mesh along one axis. -/
def coordsOf (m : Mesh) (ax : Axis) : List ℚ :=
  (vertsOf m).map (fun p => p.get ax)

/-- get_start_loc (source lines 115-118): least vertex coordinate in an axis. -/
def get_start_loc (m : Mesh) (ax : Axis) : ℚ :=
  minD (coordsOf m ax)

/-- get_end_loc (source lines 120-122): greatest vertex coordinate in an axis.
    The source always evaluates this on self.mesh, the mesh captured at invoke
    time, which is the original source object and is never reassigned. -/
def get_end_loc (m : Mesh) (ax : Axis) : ℚ :=
  maxD (coordsOf m ax)

/-- obj.dimensions of the document collaborator: bounding box extent. -/
def dimsOf (m : Mesh) (ax : Axis) : ℚ :=
  get_end_loc m ax - get_start_loc m ax

/-- loc_overlaps (source lines 124-133): the candidate location is within the
    1e-3 tolerance of the end bound of the given mesh in the given axis. -/
def loc_overlaps (m : Mesh) (loc : ℚ) (ax : Axis) : Bool :=
  decide (|loc - get_end_loc m ax| ≤ 1/1000)

/-- mesh_has_manifold_geom (source lines 140-141): all edges manifold. -/
def mesh_has_manifold_geom (m : Mesh) : Bool :=
  m.all (fun e => e.manifold)

/-- Slice type enum property (source lines 26-34). -/
inductive SliceType
  | FIXED
  | RELATIVE
deriving DecidableEq

/-- Operator configuration (source lines 26-82).  slice_qty is declared with
    min = 2, so the host clamps it; theorems that need it carry 2 <= slice_qty
    as a hypothesis.  cell_size has no declared minimum. -/
structure Config where
  slice_type : SliceType
  cell_size : ℚ
  slice_qty : ℤ
  cleanup_threshold : ℚ
  reset_origins : Bool
  x : Bool
  y : Bool
  z : Bool
  fill : Bool
  force : Bool
deriving DecidableEq

/-- num_axes_selected (source lines 85-88). -/
def num_axes_selected (c : Config) : ℕ :=
  (if c.x then 1 else 0) + (if c.y then 1 else 0) + (if c.z then 1 else 0)

/-- Failure of a Python arithmetic primitive: float division by zero. -/
inductive Err
  | divByZero
deriving DecidableEq

/-- The slice plan: slice_locs (coordinate list per axis) and num_slices (the
    per-axis slice count Vector read back through int() by slices_in_axis). -/
structure Plan where
  locs : Axis → List ℚ
  num_slices : Axis → ℤ

/-- slices_in_axis (source lines 106-107). -/
def slices_in_axis (p : Plan) (ax : Axis) : ℤ :=
  p.num_slices ax

/-- One axis of the FIXED branch of get_slice_locs (source lines 262-274):
    if the axis extent is at most the cell size the axis plan is empty;
    otherwise the loop appends start + cell, start + 2*cell, ... for
    floor(extent / cell) + 1 iterations (closed form of the accumulation). -/
def fixedLocsAxis (m : Mesh) (cs : ℚ) (ax : Axis) : List ℚ :=
  if dimsOf m ax ≤ cs then []
  else (List.range (⌊dimsOf m ax / cs⌋ + 1).toNat).map
        (fun i : ℕ => get_start_loc m ax + ((i : ℚ) + 1) * cs)

/-- One axis of the RELATIVE branch of get_slice_locs (source lines 276-287):
    qty = slice_qty + 1 coordinates stepping by extent / qty from the start. -/
def relLocsAxis (m : Mesh) (qty : ℤ) (ax : Axis) : List ℚ :=
  (List.range qty.toNat).map
    (fun i : ℕ => get_start_loc m ax + ((i : ℚ) + 1) * (dimsOf m ax / (qty : ℚ)))

/-- get_slice_locs (source lines 259-291).  The FIXED branch floor-divides the
    dimensions by cell_size with no zero guard (Python raises ZeroDivisionError
    when cell_size is 0); the RELATIVE branch divides by qty = slice_qty + 1. -/
def get_slice_locs (c : Config) (m : Mesh) : Except Err Plan :=
  match c.slice_type with
  | SliceType.FIXED =>
    if c.cell_size = 0 then Except.error Err.divByZero
    else Except.ok
      { locs := fun ax => fixedLocsAxis m c.cell_size ax
        num_slices := fun ax => ⌊dimsOf m ax / c.cell_size⌋ }
  | SliceType.RELATIVE =>
    if c.slice_qty + 1 = 0 then Except.error Err.divByZero
    else Except.ok
      { locs := fun ax => relLocsAxis m (c.slice_qty + 1) ax
        num_slices := fun _ => c.slice_qty + 1 }

/-- Coordinate list an axis receives from get_slice_locs ([] on error). -/
def planLocs (c : Config) (m : Mesh) (ax : Axis) : List ℚ :=
  match get_slice_locs c m with
  | Except.ok p => p.locs ax
  | Except.error _ => []

/-- Value of slices_in_axis for the plan of get_slice_locs (0 on error). -/
def planNum (c : Config) (m : Mesh) (ax : Axis) : ℤ :=
  match get_slice_locs c m with
  | Except.ok p => p.num_slices ax
  | Except.error _ => 0

/-- Modelled from the spec: the point where an edge crosses the cut plane
    (spec section 4.3, the half-space clip of the mesh-editing collaborator). -/
def interpAt (a b : Pt) (ax : Axis) (c : ℚ) : Pt :=
  let t := (c - a.get ax) / (b.get ax - a.get ax)
  { px := a.px + t * (b.px - a.px)
    py := a.py + t * (b.py - a.py)
    pz := a.pz + t * (b.pz - a.pz) }

/-- Modelled from the spec: clip one edge against the half space of points at
    most c on axis ax, keeping the crossing point of a cut edge. -/
def clipKeepLE (ax : Axis) (c : ℚ) (e : Edge) : Option Edge :=
  if e.pa.get ax ≤ c then
    if e.pb.get ax ≤ c then some e
    else some { e with pb := interpAt e.pa e.pb ax c }
  else
    if e.pb.get ax ≤ c then some { e with pa := interpAt e.pa e.pb ax c }
    else none

/-- Modelled from the spec: clip one edge against the half space of points at
    least c on axis ax. -/
def clipKeepGE (ax : Axis) (c : ℚ) (e : Edge) : Option Edge :=
  if c ≤ e.pa.get ax then
    if c ≤ e.pb.get ax then some e
    else some { e with pb := interpAt e.pa e.pb ax c }
  else
    if c ≤ e.pb.get ax then some { e with pa := interpAt e.pa e.pb ax c }
    else none

/-- Modelled from the spec: bpy.ops.mesh.bisect with clear_outer = True keeps
    the geometry on or before the plane (spec section 4.3, discard exterior). -/
def bisectKeepLE (ax : Axis) (c : ℚ) (m : Mesh) : Mesh :=
  m.filterMap (clipKeepLE ax c)

/-- Modelled from the spec: bpy.ops.mesh.bisect with clear_inner = True keeps
    the geometry on or after the plane (spec section 4.3, discard interior). -/
def bisectKeepGE (ax : Axis) (c : ℚ) (m : Mesh) : Mesh :=
  m.filterMap (clipKeepGE ax c)

/-- slice_operation (source lines 176-209) for cut index i at coordinate loc
    on one working mesh W: a duplicate of W is cut on the inner side at the
    previous location when i is not 0, then on the outer side at loc when
    i differs from slices_in_axis and loc_overlaps is false -- loc_overlaps is
    evaluated against src, the original mesh captured at invoke time.
    Returns the fragment and whether the outer (exterior) cut was performed. -/
def slice_operation (src : Mesh) (plan : Plan) (ax : Axis) (W : Mesh)
    (i : ℕ) (loc : ℚ) : Mesh × Bool :=
  let F := if i ≠ 0 then bisectKeepGE ax ((plan.locs ax).getD (i - 1) 0) W else W
  if (i : ℤ) ≠ slices_in_axis plan ax ∧ loc_overlaps src loc ax = false
  then (bisectKeepLE ax loc F, true)
  else (F, false)

/-- An object linked in the document: identity, name, mesh data, hide state. -/
structure Frag where
  fid : ℕ
  name : List Char
  mesh : Mesh
  hidden : Bool
deriving DecidableEq

/-- The character list of the temporary marker substring. -/
def markerName : List Char := ['_', '_', 'S', 'l', 'i', 'c', 'e', 'd', '_', '_']

/-- The character list of the name given to the retired original. -/
def slicedOriginalName : List Char :=
  ['S', 'l', 'i', 'c', 'e', 'd', '_', 'O', 'r', 'i', 'g', 'i', 'n', 'a', 'l']

/-- The separator of final chunk names. -/
def slicedSep : List Char := ['_', 'S', 'l', 'i', 'c', 'e', 'd', '_']

def axChar : Axis → List Char
  | Axis.x => ['x']
  | Axis.y => ['y']
  | Axis.z => ['z']

/-- rename_temp (source lines 143-144): the temporary fragment name. -/
def tempName (i : ℕ) (ax : Axis) : List Char :=
  markerName ++ Nat.toDigits 10 i ++ ['_', '_'] ++ axChar ax

/-- Substring test used by cleanup_objs (source line 226). -/
def containsMarker : List Char → Bool
  | [] => false
  | a :: r => markerName.isPrefixOf (a :: r) || containsMarker r

/-- The fragments one axis cascade produces from one input object W (the
    enumerate loop of slice_x / slice_y / slice_z, source lines 336-392):
    one duplicate per coordinate of the axis plan, cut by slice_operation,
    carrying a fresh id from base on and the temporary marker name. -/
def fragsFor (src : Mesh) (plan : Plan) (ax : Axis) (W : Frag) (base : ℕ) :
    List Frag :=
  ((plan.locs ax).enum).map (fun q =>
    { fid := base + q.1
      name := tempName q.1 ax
      mesh := (slice_operation src plan ax W.mesh q.1 q.2).1
      hidden := false })

/-- context.collection.objects.unlink: detach the object with this id. -/
def removeFid (doc : List Frag) (k : ℕ) : List Frag :=
  doc.filter (fun o => o.fid ≠ k)

/-- One full axis cascade over its input set (slice_y / slice_z loop over the
    previous fragment set, source lines 351-392): for each input object link
    its fragments, then, when retire is set, unlink the consumed input (the
    slice_x phase passes retire = false: it never unlinks its input).
    Returns (output fragment set, document, next fresh id). -/
def axisPhase (src : Mesh) (plan : Plan) (ax : Axis) (retire : Bool) :
    List Frag → List Frag → ℕ → List Frag × List Frag × ℕ
  | [], doc, next => ([], doc, next)
  | W :: rest, doc, next =>
    let fr := fragsFor src plan ax W next
    let doc2 := if retire then removeFid (doc ++ fr) W.fid else doc ++ fr
    let res := axisPhase src plan ax retire rest doc2 (next + fr.length)
    (fr ++ res.1, res.2)

/-- The hide and rename of the original after the x phase (source 415-416). -/
def renameHideOrig (o : Frag) : Frag :=
  if o.fid = 0 then { o with hidden := true, name := slicedOriginalName }
  else o

/-- The original object as linked at invoke time; it carries id 0, every
    fragment created by the run carries an id of at least 1. -/
def origFrag (nm : List Char) (m : Mesh) : Frag :=
  { fid := 0, name := nm, mesh := m, hidden := false }

/-- The three slicing phases of execute (source lines 329-420) over the
    document: x slices the original (kept linked, then hidden and renamed when
    the x axis is selected); y and z each slice every object of the previous
    fragment set, unlinking each consumed input, substituting the original as
    the input set when the previous set is empty.  Returns the document as it
    enters cleanup_objs. -/
def runPhases (c : Config) (plan : Plan) (nm : List Char) (m : Mesh) :
    List Frag :=
  let orig := origFrag nm m
  let px := if c.x && !(plan.locs Axis.x).isEmpty
            then axisPhase m plan Axis.x false [orig] [orig] 1
            else ([], [orig], 1)
  let slicedX := px.1
  let docB := if c.x then px.2.1.map renameHideOrig else px.2.1
  let objCur := if c.x then renameHideOrig orig else orig
  let py := if c.y && !(plan.locs Axis.y).isEmpty
            then axisPhase m plan Axis.y true
                  (if slicedX.isEmpty then [objCur] else slicedX) docB px.2.2
            else ([], docB, px.2.2)
  let slicedY := py.1
  let pz := if c.z && !(plan.locs Axis.z).isEmpty
            then axisPhase m plan Axis.z true
                  (if slicedY.isEmpty then
                     (if slicedX.isEmpty then [objCur] else slicedX)
                   else slicedY) py.2.1 py.2.2
            else ([], py.2.1, py.2.2)
  pz.2.1

/-- invalid_dimensions (source lines 211-213): more than one bounding box
    dimension at or below the cleanup threshold. -/
def invalid_dimensions (c : Config) (m : Mesh) : Bool :=
  decide (1 < Axis.all.countP (fun ax => decide (dimsOf m ax ≤ c.cleanup_threshold)))

/-- delete_small_obj condition (source lines 229-234): no vertices survived,
    or the dimensions are invalid. -/
def delete_small_check (c : Config) (o : Frag) : Bool :=
  (vertsOf o.mesh).isEmpty || invalid_dimensions c o.mesh

/-- Final name of a surviving chunk (rename_obj, source lines 236-240). -/
def final_name (base : List Char) (k : ℕ) : List Char :=
  base ++ slicedSep ++ Nat.toDigits 10 k

/-- re.sub of a trailing dot-digits disambiguation suffix (source line 227). -/
def stripTrailingNum (s : List Char) : List Char :=
  let r := s.reverse
  let d := r.takeWhile (fun ch => ch.isDigit)
  if d.isEmpty then s
  else
    match r.drop d.length with
    | '.' :: rest => rest.reverse
    | _ => s

/-- The rename pass of cleanup_objs: every object still carrying the marker
    name receives base_Sliced_(k+1) with k counting markers seen so far. -/
def renameIn (base : List Char) : ℕ → List Frag → List Frag
  | _, [] => []
  | k, o :: rest =>
    if containsMarker o.name
    then { o with name := final_name base (k + 1) } :: renameIn base (k + 1) rest
    else o :: renameIn base k rest

/-- cleanup_objs (source lines 215-257): unlink every marker-named object that
    fails delete_small_check, then rename the surviving marker-named objects in
    stable document order with 1-based ordinals. -/
def cleanup_objs (c : Config) (origName : List Char) (doc : List Frag) :
    List Frag :=
  renameIn (stripTrailingNum origName) 0
    (doc.filter (fun o => !(containsMarker o.name && delete_small_check c o)))

/-- Result states of the operator run. -/
inductive CancelReason
  | nonManifold
  | noAxis
deriving DecidableEq

/-- Outcome of execute: an uncaught Python exception, a CANCELLED return with
    its reported reason, or a FINISHED return; the latter two carry the
    document in its final state. -/
inductive Outcome
  | err (e : Err)
  | cancelled (r : CancelReason) (doc : List Frag)
  | finished (doc : List Frag)
deriving DecidableEq

/-- execute (source lines 329-423): build the slice plan (may raise), then the
    manifold gate, then the axis-selection gate, then the three phases and the
    cleanup pass. -/
def execute (c : Config) (nm : List Char) (m : Mesh) : Outcome :=
  match get_slice_locs c m with
  | Except.error e => Outcome.err e
  | Except.ok plan =>
    if !c.force && !mesh_has_manifold_geom m then
      Outcome.cancelled CancelReason.nonManifold [origFrag nm m]
    else if num_axes_selected c = 0 then
      Outcome.cancelled CancelReason.noAxis [origFrag nm m]
    else
      Outcome.finished (cleanup_objs c nm (runPhases c plan nm m))

/-- Document carried by an outcome ([] when the run raised). -/
def finalDoc : Outcome → List Frag
  | Outcome.err _ => []
  | Outcome.cancelled _ d => d
  | Outcome.finished d => d

def isCancelled : Outcome → Bool
  | Outcome.cancelled _ _ => true
  | _ => false

def isFinished : Outcome → Bool
  | Outcome.finished _ => true
  | _ => false

/-- The plan a configuration builds for a mesh (junk plan on error). -/
def planOfD (c : Config) (m : Mesh) : Plan :=
  match get_slice_locs c m with
  | Except.ok p => p
  | Except.error _ => { locs := fun _ => [], num_slices := fun _ => 0 }

/-! Concrete sample inputs used by witnesses and counterexamples. -/

def pt3 (a b c : ℚ) : Pt :=
  { px := a, py := b, pz := c }

/-- Sample mesh of fully manifold-flagged edges with extent 3 on every axis. -/
def starMesh : Mesh :=
  [ { pa := pt3 0 0 0, pb := pt3 3 0 0, manifold := true }
  , { pa := pt3 0 0 0, pb := pt3 0 3 0, manifold := true }
  , { pa := pt3 0 0 0, pb := pt3 0 0 3, manifold := true } ]

/-- Sample mesh with extent 1 on every axis. -/
def unitStarMesh : Mesh :=
  [ { pa := pt3 0 0 0, pb := pt3 1 0 0, manifold := true }
  , { pa := pt3 0 0 0, pb := pt3 0 1 0, manifold := true }
  , { pa := pt3 0 0 0, pb := pt3 0 0 1, manifold := true } ]

/-- Sample mesh with one non-manifold edge. -/
def nonManifoldMesh : Mesh :=
  [ { pa := pt3 0 0 0, pb := pt3 1 0 0, manifold := false } ]

/-- Sample flat mesh: extent 3 on x and y, extent 0 on z. -/
def flatMesh : Mesh :=
  [ { pa := pt3 0 0 0, pb := pt3 3 0 0, manifold := true }
  , { pa := pt3 0 0 0, pb := pt3 0 3 0, manifold := true } ]

/-- Sample step-profile mesh in the z = 0 plane: the region with x up to 3/2
    rises only to y = 1, the rest rises to y = 3. -/
def stepMesh : Mesh :=
  [ { pa := pt3 0 0 0, pb := pt3 3 0 0, manifold := true }
  , { pa := pt3 3 0 0, pb := pt3 3 3 0, manifold := true }
  , { pa := pt3 3 3 0, pb := pt3 (3/2) 3 0, manifold := true }
  , { pa := pt3 (3/2) 3 0, pb := pt3 (3/2) 1 0, manifold := true }
  , { pa := pt3 (3/2) 1 0, pb := pt3 0 1 0, manifold := true }
  , { pa := pt3 0 1 0, pb := pt3 0 0 0, manifold := true } ]

def cubeName : List Char := "Cube".toList

/-- Baseline configuration: RELATIVE mode, slice_qty 2, default thresholds. -/
def baseCfg : Config :=
  { slice_type := SliceType.RELATIVE, cell_size := 3/10, slice_qty := 2
  , cleanup_threshold := 1/200, reset_origins := true
  , x := true, y := true, z := true, fill := true, force := false }

/-- FIXED mode with cell_size 0 (the unguarded division). -/
def cfgFixedZero : Config :=
  { baseCfg with slice_type := SliceType.FIXED, cell_size := 0 }

/-- FIXED mode with cell_size 3/10. -/
def cfgFixed : Config :=
  { baseCfg with slice_type := SliceType.FIXED, cell_size := 3/10 }

/-- RELATIVE mode slicing only the x axis. -/
def cfgX : Config :=
  { baseCfg with y := false, z := false }

/-- RELATIVE mode slicing only the z axis. -/
def cfgZ : Config :=
  { baseCfg with x := false, y := false }

/-- RELATIVE mode slicing x and y. -/
def cfgXY : Config :=
  { baseCfg with z := false }

/-- RELATIVE mode with no axis selected. -/
def cfgNoAxis : Config :=
  { baseCfg with x := false, y := false, z := false }

/-! Claim theorems. -/

/-- Claim C10: the FIXED branch of plan building floor-divides each axis
    extent by cell_size with no zero guard and the cell_size option has no
    positive minimum, so for every input mesh a FIXED run with cell_size = 0
    fails with a division-by-zero error before any cut occurs: plan building
    is the first step of execute, so the run raises instead of reaching the
    gates, the phases or the document. -/
theorem C10_theorem (c : Config) (m : Mesh) (nm : List Char)
    (hft : c.slice_type = SliceType.FIXED) (hcs : c.cell_size = 0) :
    get_slice_locs c m = Except.error Err.divByZero ∧
    execute c nm m = Outcome.err Err.divByZero := by
  have h1 : get_slice_locs c m = Except.error Err.divByZero := by
    unfold get_slice_locs
    rw [hft]
    simp [hcs]
  refine ⟨h1, ?_⟩
  unfold execute
  rw [h1]

/-- Witness for C10 at the concrete FIXED cell_size = 0 configuration. -/
theorem C10_witness :
    cfgFixedZero.slice_type = SliceType.FIXED ∧ cfgFixedZero.cell_size = 0 ∧
    (get_slice_locs cfgFixedZero starMesh = Except.error Err.divByZero ∧
      execute cfgFixedZero cubeName starMesh = Outcome.err Err.divByZero) :=
  ⟨rfl, rfl, C10_theorem cfgFixedZero starMesh cubeName rfl rfl⟩

/-- Claim C4, counterexample to the universal statement: for the non-manifold
    sample mesh with force unset, a FIXED configuration with cell_size 0 makes
    execute raise a division error during plan building, which runs before the
    manifoldness gate, so this run does not abort with a Cancelled result. -/
theorem C4_counterexample :
    mesh_has_manifold_geom nonManifoldMesh = false ∧
    cfgFixedZero.force = false ∧
    execute cfgFixedZero cubeName nonManifoldMesh = Outcome.err Err.divByZero ∧
    isCancelled (execute cfgFixedZero cubeName nonManifoldMesh) = false := by
  decide

/-- Claim C4 as amended: for every input mesh with a non-manifold edge and
    force unset, provided plan building succeeds (it precedes the gate and can
    itself raise, see C10), execute aborts Cancelled with the non-manifold
    reason before any mutation: the returned document is exactly the untouched
    original object, nothing duplicated, linked, renamed or hidden. -/
theorem C4_theorem (c : Config) (nm : List Char) (m : Mesh) (plan : Plan)
    (hp : get_slice_locs c m = Except.ok plan)
    (hman : mesh_has_manifold_geom m = false) (hf : c.force = false) :
    execute c nm m = Outcome.cancelled CancelReason.nonManifold [origFrag nm m] := by
  unfold execute
  rw [hp]
  simp [hf, hman]

/-- Witness for C4 at the non-manifold sample mesh in RELATIVE mode. -/
theorem C4_witness :
    get_slice_locs baseCfg nonManifoldMesh =
        Except.ok (planOfD baseCfg nonManifoldMesh) ∧
    mesh_has_manifold_geom nonManifoldMesh = false ∧
    baseCfg.force = false ∧
    execute baseCfg cubeName nonManifoldMesh =
      Outcome.cancelled CancelReason.nonManifold [origFrag cubeName nonManifoldMesh] :=
  ⟨rfl, rfl, rfl,
    C4_theorem baseCfg cubeName nonManifoldMesh (planOfD baseCfg nonManifoldMesh) rfl rfl rfl⟩

/-- Claim C8, counterexample to the reported reason: with no axis selected and
    a non-manifold input (force unset), execute cancels, but with the
    non-manifold reason, because the manifoldness gate runs before the axis
    gate; the claim predicts the no-axis-selected reason. -/
theorem C8_counterexample :
    num_axes_selected cfgNoAxis = 0 ∧
    execute cfgNoAxis cubeName nonManifoldMesh =
      Outcome.cancelled CancelReason.nonManifold [origFrag cubeName nonManifoldMesh] := by
  decide

/-- Claim C8 as amended: when no axis is selected, provided plan building
    succeeds (see C10) and the manifoldness gate passes (manifold input or
    force set), execute terminates Cancelled with the no-axis reason before
    any cut or document mutation: the returned document is the untouched
    original and no fragment is created. -/
theorem C8_theorem (c : Config) (nm : List Char) (m : Mesh) (plan : Plan)
    (hp : get_slice_locs c m = Except.ok plan)
    (hgate : c.force = true ∨ mesh_has_manifold_geom m = true)
    (hax : num_axes_selected c = 0) :
    execute c nm m = Outcome.cancelled CancelReason.noAxis [origFrag nm m] := by
  unfold execute
  rw [hp]
  rcases hgate with h | h <;> simp [h, hax]

/-- Witness for C8 at the manifold sample mesh with all axes unselected. -/
theorem C8_witness :
    get_slice_locs cfgNoAxis starMesh = Except.ok (planOfD cfgNoAxis starMesh) ∧
    mesh_has_manifold_geom starMesh = true ∧
    num_axes_selected cfgNoAxis = 0 ∧
    execute cfgNoAxis cubeName starMesh =
      Outcome.cancelled CancelReason.noAxis [origFrag cubeName starMesh] :=
  ⟨rfl, rfl, rfl,
    C8_theorem cfgNoAxis cubeName starMesh (planOfD cfgNoAxis starMesh) rfl
      (Or.inr rfl) rfl⟩

/-- A mesh with an empty vertex list is the empty edge list. -/
lemma mesh_eq_nil_of_verts_nil {m : Mesh} (h : vertsOf m = []) : m = [] := by
  cases m with
  | nil => rfl
  | cons e r => simp [vertsOf] at h

/-- Claim C6: finalization discards a fragment exactly when it has no
    vertices or at least two of its three bounding-box dimensions are at or
    below the cleanup threshold; a fragment with exactly one such dimension is
    kept (validation is a total check: it only discards or keeps). -/
theorem C6_theorem (c : Config) (o : Frag) :
    (delete_small_check c o = true ↔
      vertsOf o.mesh = [] ∨
        2 ≤ Axis.all.countP
              (fun ax => decide (dimsOf o.mesh ax ≤ c.cleanup_threshold))) ∧
    (Axis.all.countP (fun ax => decide (dimsOf o.mesh ax ≤ c.cleanup_threshold)) = 1 →
      delete_small_check c o = false) := by
  constructor
  · unfold delete_small_check invalid_dimensions
    have h2 : ∀ n : ℕ, 1 < n ↔ 2 ≤ n := fun n => by omega
    simp [List.isEmpty_iff, h2]
  · intro h1
    have hne : vertsOf o.mesh ≠ [] := by
      intro hnil
      have hm : o.mesh = [] := mesh_eq_nil_of_verts_nil hnil
      rw [hm] at h1
      by_cases hthr : (0 : ℚ) ≤ c.cleanup_threshold
      · simp [Axis.all, dimsOf, get_end_loc, get_start_loc, coordsOf, vertsOf,
          minD, maxD, hthr] at h1
      · simp [Axis.all, dimsOf, get_end_loc, get_start_loc, coordsOf, vertsOf,
          minD, maxD, hthr] at h1
    unfold delete_small_check invalid_dimensions
    simp [List.isEmpty_iff, hne, h1]

/-- Witness for C6 at a concrete fragment with exactly one collapsed
    dimension: the iff and the keep direction hold there. -/
theorem C6_witness :
    ((delete_small_check baseCfg (origFrag cubeName flatMesh) = true ↔
      vertsOf flatMesh = [] ∨
        2 ≤ Axis.all.countP
              (fun ax => decide (dimsOf flatMesh ax ≤ baseCfg.cleanup_threshold))) ∧
    (Axis.all.countP
        (fun ax => decide (dimsOf flatMesh ax ≤ baseCfg.cleanup_threshold)) = 1 →
      delete_small_check baseCfg (origFrag cubeName flatMesh) = false)) ∧
    delete_small_check baseCfg (origFrag cubeName flatMesh) = false :=
  ⟨C6_theorem baseCfg (origFrag cubeName flatMesh),
    (C6_theorem baseCfg (origFrag cubeName flatMesh)).2 (by decide)⟩

/-- Claim C3, counterexample: in FIXED mode with cell size 3/10 on a unit
    extent, slices_in_axis is floor(1 / (3/10)) = 3 while 4 cut coordinates
    are generated, so the derived value does not equal the generated count. -/
theorem C3_counterexample :
    planNum cfgFixed unitStarMesh Axis.x = 3 ∧
    (planLocs cfgFixed unitStarMesh Axis.x).length = 4 := by
  decide

/-- Claim C3 as amended: slices_in_axis equals the generated coordinate count
    in RELATIVE mode (both are slice_qty + 1); in FIXED mode with positive
    cell size it undercounts by one on a sliceable axis (slice_count
    coordinates plus one are generated) and a skipped axis generates zero
    coordinates whatever slices_in_axis holds. -/
theorem C3_theorem (c : Config) (m : Mesh) (ax : Axis) :
    (c.slice_type = SliceType.RELATIVE → 2 ≤ c.slice_qty →
      ((planLocs c m ax).length : ℤ) = planNum c m ax) ∧
    (c.slice_type = SliceType.FIXED → 0 < c.cell_size →
      (c.cell_size < dimsOf m ax →
        ((planLocs c m ax).length : ℤ) = planNum c m ax + 1) ∧
      (dimsOf m ax ≤ c.cell_size → (planLocs c m ax).length = 0)) := by
  constructor
  · intro hrel hq
    unfold planLocs planNum get_slice_locs
    rw [hrel]
    have hne : ¬(c.slice_qty + 1 = 0) := by omega
    simp only [hne, if_false, relLocsAxis, List.length_map, List.length_range]
    omega
  · intro hfix hcs
    have hne : ¬(c.cell_size = 0) := ne_of_gt hcs
    unfold planLocs planNum get_slice_locs
    rw [hfix]
    simp only [hne, if_false]
    constructor
    · intro hlt
      have hnle : ¬(dimsOf m ax ≤ c.cell_size) := not_le.mpr hlt
      have hfl : (0 : ℤ) ≤ ⌊dimsOf m ax / c.cell_size⌋ := by
        refine Int.floor_nonneg.mpr (div_nonneg ?_ (le_of_lt hcs))
        exact le_trans (le_of_lt hcs) (le_of_lt hlt)
      simp only [fixedLocsAxis, hnle, if_false, List.length_map, List.length_range]
      omega
    · intro hle
      simp [fixedLocsAxis, hle]

/-- Witness for C3: the RELATIVE equality on the sample mesh, and both FIXED
    cases (sliceable axis, skipped axis) at cell size 3/10. -/
theorem C3_witness :
    (baseCfg.slice_type = SliceType.RELATIVE ∧ 2 ≤ baseCfg.slice_qty ∧
      ((planLocs baseCfg starMesh Axis.x).length : ℤ) =
        planNum baseCfg starMesh Axis.x) ∧
    (cfgFixed.slice_type = SliceType.FIXED ∧ 0 < cfgFixed.cell_size ∧
      cfgFixed.cell_size < dimsOf unitStarMesh Axis.x ∧
      ((planLocs cfgFixed unitStarMesh Axis.x).length : ℤ) =
        planNum cfgFixed unitStarMesh Axis.x + 1) ∧
    (dimsOf flatMesh Axis.z ≤ cfgFixed.cell_size ∧
      (planLocs cfgFixed flatMesh Axis.z).length = 0) :=
  ⟨⟨rfl, by decide, (C3_theorem baseCfg starMesh Axis.x).1 rfl (by decide)⟩,
   ⟨rfl, by decide, by decide,
     ((C3_theorem cfgFixed unitStarMesh Axis.x).2 rfl (by decide)).1 (by decide)⟩,
   ⟨by decide, ((C3_theorem cfgFixed flatMesh Axis.z).2 rfl (by decide)).2 (by decide)⟩⟩

lemma foldl_min_le_init (a : ℚ) (l : List ℚ) : l.foldl min a ≤ a := by
  induction l generalizing a with
  | nil => exact le_refl a
  | cons b r ih => exact le_trans (ih (min a b)) (min_le_left a b)

lemma init_le_foldl_max (a : ℚ) (l : List ℚ) : a ≤ l.foldl max a := by
  induction l generalizing a with
  | nil => exact le_refl a
  | cons b r ih => exact le_trans (le_max_left a b) (ih (max a b))

/-- Bounding box dimensions are never negative. -/
lemma dimsOf_nonneg (m : Mesh) (ax : Axis) : 0 ≤ dimsOf m ax := by
  unfold dimsOf get_end_loc get_start_loc
  cases h : coordsOf m ax with
  | nil => simp [minD, maxD]
  | cons a r =>
    simp only [minD, maxD]
    have h1 := foldl_min_le_init a r
    have h2 := init_le_foldl_max a r
    linarith

/-- An arithmetic progression with positive step is strictly increasing. -/
lemma stepList_pairwise (s w : ℚ) (hw : 0 < w) (n : ℕ) :
    ((List.range n).map (fun i : ℕ => s + ((i : ℚ) + 1) * w)).Pairwise (· < ·) := by
  rw [List.pairwise_map]
  refine (List.pairwise_lt_range n).imp ?_
  intro i j hij
  have hc : ((i : ℚ) + 1) < ((j : ℚ) + 1) := by exact_mod_cast Nat.succ_lt_succ hij
  have := mul_lt_mul_of_pos_right hc hw
  linarith

/-- Claim C9, counterexample: on a flat mesh (zero extent on z) in RELATIVE
    mode the z coordinate sequence is constant, not strictly increasing. -/
theorem C9_counterexample :
    ¬ (planLocs baseCfg flatMesh Axis.z).Pairwise (· < ·) := by
  decide

/-- Claim C9 as amended: the coordinates of one axis of a built plan are
    strictly increasing in FIXED mode always, and in RELATIVE mode whenever
    the axis extent is positive; a zero-extent axis in RELATIVE mode yields a
    constant repeated sequence. -/
theorem C9_theorem (c : Config) (m : Mesh) (ax : Axis) :
    (c.slice_type = SliceType.FIXED → (planLocs c m ax).Pairwise (· < ·)) ∧
    (c.slice_type = SliceType.RELATIVE → 0 < dimsOf m ax →
      (planLocs c m ax).Pairwise (· < ·)) := by
  constructor
  · intro hfix
    unfold planLocs get_slice_locs
    rw [hfix]
    by_cases hz : c.cell_size = 0
    · simp [hz]
    · simp only [hz, if_false]
      by_cases hle : dimsOf m ax ≤ c.cell_size
      · simp [fixedLocsAxis, hle]
      · simp only [fixedLocsAxis, hle, if_false]
        by_cases hw : 0 < c.cell_size
        · exact stepList_pairwise _ _ hw _
        · have hneg : c.cell_size < 0 := by
            rcases lt_trichotomy c.cell_size 0 with h | h | h
            · exact h
            · exact absurd h hz
            · exact absurd h hw
          have hdiv : dimsOf m ax / c.cell_size ≤ 0 :=
            div_nonpos_of_nonneg_of_nonpos (dimsOf_nonneg m ax) (le_of_lt hneg)
          have hfl : ⌊dimsOf m ax / c.cell_size⌋ ≤ 0 := Int.floor_nonpos hdiv
          have hn : (⌊dimsOf m ax / c.cell_size⌋ + 1).toNat ≤ 1 := by omega
          cases hcase : (⌊dimsOf m ax / c.cell_size⌋ + 1).toNat with
          | zero => simp [hcase]
          | succ k =>
            have hk : k = 0 := by omega
            subst hk
            have h1 : List.range 1 = [0] := rfl
            simp [h1]
  · intro hrel hd
    unfold planLocs get_slice_locs
    rw [hrel]
    by_cases hz : c.slice_qty + 1 = 0
    · simp [hz]
    · simp only [hz, if_false]
      unfold relLocsAxis
      by_cases hq : 0 < c.slice_qty + 1
      · have hqq : (0 : ℚ) < ((c.slice_qty + 1 : ℤ) : ℚ) := by exact_mod_cast hq
        exact stepList_pairwise _ _ (div_pos hd hqq) _
      · have : (c.slice_qty + 1).toNat = 0 := by omega
        simp [this]

/-- Witness for C9: a FIXED plan and a positive-extent RELATIVE plan are
    strictly increasing on the sample meshes. -/
theorem C9_witness :
    (cfgFixed.slice_type = SliceType.FIXED ∧
      (planLocs cfgFixed unitStarMesh Axis.x).Pairwise (· < ·)) ∧
    (baseCfg.slice_type = SliceType.RELATIVE ∧ 0 < dimsOf starMesh Axis.x ∧
      (planLocs baseCfg starMesh Axis.x).Pairwise (· < ·)) :=
  ⟨⟨rfl, (C9_theorem cfgFixed unitStarMesh Axis.x).1 rfl⟩,
   ⟨rfl, by decide, (C9_theorem baseCfg starMesh Axis.x).2 rfl (by decide)⟩⟩

/-- The plan the step sample builds in RELATIVE mode slicing x and y. -/
def stepPlan : Plan := planOfD cfgXY stepMesh

/-- The first fragment the x cascade produces from the step sample. -/
def stepFragA : Frag :=
  (fragsFor stepMesh stepPlan Axis.x (origFrag cubeName stepMesh) 1).getD 0
    (origFrag cubeName stepMesh)

/-- Claim C2, counterexample: in the y cascade over the first x fragment of
    the step sample, the candidate coordinate c[0] = 1 lies exactly on the
    current y maximum of the fragment being cut (within the 1e-3 tolerance),
    yet the exterior cut is performed, because loc_overlaps is evaluated
    against the original source mesh (y maximum 3), never against the
    fragment; the claim predicts no exterior cut here. -/
theorem C2_counterexample :
    (slice_operation stepMesh stepPlan Axis.y stepFragA.mesh 0
        ((stepPlan.locs Axis.y).getD 0 0)).2 = true ∧
    |(stepPlan.locs Axis.y).getD 0 0 - get_end_loc stepFragA.mesh Axis.y| ≤ 1/1000 := by
  decide

/-- Claim C2 as amended: the exterior cut at index i and coordinate loc is
    performed exactly when i differs from slices_in_axis (not from the last
    index, which in RELATIVE mode is always one less) and loc is not within
    1e-3 of the upper bound of the original source mesh on that axis: the
    implementation consults the bounds of the invoke-time mesh throughout the
    cascade, never the bounds of the fragment currently being cut. -/
theorem C2_theorem (src : Mesh) (plan : Plan) (ax : Axis) (W : Mesh)
    (i : ℕ) (loc : ℚ) :
    (slice_operation src plan ax W i loc).2 = true ↔
      ((i : ℤ) ≠ slices_in_axis plan ax ∧
        ¬ |loc - get_end_loc src ax| ≤ 1/1000) := by
  unfold slice_operation loc_overlaps
  split_ifs with h <;> simp_all [decide_eq_false_iff_not]

/-- Positional description of the rename pass: entry j of renameIn is entry j
    of its input, renamed when marker-named, with the ordinal counting the
    marker-named entries before it, shifted by the accumulator. -/
lemma renameIn_getElem (base : List Char) :
    ∀ (l : List Frag) (k j : ℕ),
      (renameIn base k l)[j]? = (l[j]?).map
        (fun o => if containsMarker o.name
          then { o with name := (final_name base
                  (k + (l.take j).countP (fun o => containsMarker o.name) + 1)) }
          else o) := by
  intro l
  induction l with
  | nil => intro k j; simp [renameIn]
  | cons o rest ih =>
    intro k j
    by_cases hm : containsMarker o.name
    · have hstep : renameIn base k (o :: rest) =
          { o with name := (final_name base (k + 1)) } :: renameIn base (k + 1) rest := by
        simp [renameIn, hm]
      cases j with
      | zero => simp [hstep, hm]
      | succ j =>
        rw [hstep, List.getElem?_cons_succ, List.getElem?_cons_succ, ih (k + 1) j,
          List.take_succ_cons, List.countP_cons]
        cases hrj : rest[j]? with
        | none => rfl
        | some o2 =>
          simp only [Option.map]
          have harith :
              k + 1 + (rest.take j).countP (fun o => containsMarker o.name) + 1 =
              k + ((rest.take j).countP (fun o => containsMarker o.name) +
                    (if containsMarker o.name then 1 else 0)) + 1 := by
            rw [if_pos hm]; omega
          rw [harith]
    · have hstep : renameIn base k (o :: rest) = o :: renameIn base k rest := by
        simp [renameIn, hm]
      cases j with
      | zero => simp [hstep, hm]
      | succ j =>
        rw [hstep, List.getElem?_cons_succ, List.getElem?_cons_succ, ih k j,
          List.take_succ_cons, List.countP_cons]
        cases hrj : rest[j]? with
        | none => rfl
        | some o2 =>
          simp only [Option.map]
          have harith :
              k + (rest.take j).countP (fun o => containsMarker o.name) + 1 =
              k + ((rest.take j).countP (fun o => containsMarker o.name) +
                    (if containsMarker o.name then 1 else 0)) + 1 := by
            rw [if_neg hm]; omega
          rw [harith]

/-- Claim C7: after cleanup, position j of the document holds position j of
    the discard-filtered document, renamed to base_Sliced_(n+1) exactly when
    it is a surviving cascade fragment (marker-named), where base strips the
    trailing numeric disambiguation suffix of the original name and n counts
    the surviving fragments before it in stable document order, so surviving
    fragments receive the consecutive 1-based ordinals 1..m. -/
theorem C7_theorem (c : Config) (origName : List Char) (doc : List Frag) (j : ℕ) :
    (cleanup_objs c origName doc)[j]? =
      ((doc.filter (fun o => !(containsMarker o.name && delete_small_check c o)))[j]?).map
        (fun o => if containsMarker o.name
          then { o with name := (final_name (stripTrailingNum origName)
                  (((doc.filter
                        (fun o => !(containsMarker o.name && delete_small_check c o))).take j).countP
                     (fun o => containsMarker o.name) + 1)) }
          else o) := by
  unfold cleanup_objs
  have h := renameIn_getElem (stripTrailingNum origName)
      (doc.filter (fun o => !(containsMarker o.name && delete_small_check c o))) 0 j
  simpa using h

/-- Claim C1, counterexample: RELATIVE mode on the sample mesh slicing only x
    yields a cut coordinate sequence of length 3 and exactly 3 fragments enter
    finalization (the scheduler creates one duplicate per coordinate), not
    3 + 1 = 4 as the claim predicts for a sequence of length 3. -/
theorem C1_counterexample :
    (planLocs cfgX starMesh Axis.x).length = 3 ∧
    ((runPhases cfgX (planOfD cfgX starMesh) cubeName starMesh).filter
        (fun o => containsMarker o.name)).length = 3 := by
  decide

/-- Claim C5, counterexample: slicing only the z axis, the run finishes but
    the original source object (id 0) has been unlinked from the document:
    the z cascade consumed it as an ordinary input and retired it instead of
    hiding and renaming it. -/
theorem C5_counterexample :
    isFinished (execute cfgZ cubeName starMesh) = true ∧
    (finalDoc (execute cfgZ cubeName starMesh)).all (fun o => o.fid != 0) = true := by
  decide

/-! Helper lemmas for the cascade phases. -/

lemma containsMarker_marker_append (s : List Char) :
    containsMarker (markerName ++ s) = true := by
  have hpre : markerName.isPrefixOf (markerName ++ s) = true :=
    List.isPrefixOf_iff_prefix.mpr (List.prefix_append _ _)
  have hcons : markerName ++ s =
      '_' :: (['_', 'S', 'l', 'i', 'c', 'e', 'd', '_', '_'] ++ s) := rfl
  rw [hcons]
  simp only [containsMarker]
  rw [← hcons, hpre]
  simp

lemma tempName_marker (i : ℕ) (ax : Axis) :
    containsMarker (tempName i ax) = true := by
  unfold tempName
  rw [List.append_assoc, List.append_assoc]
  exact containsMarker_marker_append _

lemma notMarker_slicedOriginal : containsMarker slicedOriginalName = false := by
  decide

lemma fragsFor_length (src : Mesh) (plan : Plan) (ax : Axis) (W : Frag) (base : ℕ) :
    (fragsFor src plan ax W base).length = (plan.locs ax).length := by
  simp [fragsFor]

lemma fragsFor_mem (src : Mesh) (plan : Plan) (ax : Axis) (W : Frag) (base : ℕ) :
    ∀ o ∈ fragsFor src plan ax W base,
      containsMarker o.name = true ∧ base ≤ o.fid ∧
        o.fid < base + (plan.locs ax).length := by
  intro o ho
  unfold fragsFor at ho
  rcases List.mem_map.mp ho with ⟨q, hq, rfl⟩
  have h1 := List.mem_enum_iff_getElem?.mp hq
  have hqlt : q.1 < (plan.locs ax).length := by
    rcases List.getElem?_eq_some.mp h1 with ⟨h, _⟩
    exact h
  refine ⟨tempName_marker _ _, ?_, ?_⟩ <;> simp <;> omega

lemma not_contains_fid (l : List Frag) (n : ℕ) (h : ∀ W ∈ l, W.fid < n)
    (v : ℕ) (hv : n ≤ v) : (l.map Frag.fid).contains v = false := by
  cases hc : (l.map Frag.fid).contains v with
  | false => rfl
  | true =>
    have hmem : v ∈ l.map Frag.fid := by
      simpa [List.contains] using hc
    rcases List.mem_map.mp hmem with ⟨W, hW, hfe⟩
    have := h W hW
    omega

lemma not_contains_fid_zero (l : List Frag) (hl : ∀ o ∈ l, 1 ≤ o.fid) :
    (l.map Frag.fid).contains 0 = false := by
  cases hc : (l.map Frag.fid).contains 0 with
  | false => rfl
  | true =>
    have hmem : 0 ∈ l.map Frag.fid := by
      simpa [List.contains] using hc
    rcases List.mem_map.mp hmem with ⟨W, hW, hfe⟩
    have := hl W hW
    omega

lemma contains_fid_of_mem (l : List Frag) (o : Frag) (h : o ∈ l) :
    (l.map Frag.fid).contains o.fid = true := by
  have hm : o.fid ∈ l.map Frag.fid := List.mem_map_of_mem Frag.fid h
  simpa [List.contains] using hm

/-- Full characterization of one axis phase: the id counter advances by
    inputs * coordinates, the output has one fragment per input per
    coordinate, every output fragment is marker-named with a fresh id, and the
    document becomes the old document (minus the consumed inputs when the
    phase retires them) followed by the output fragments in order. -/
lemma axisPhase_spec (src : Mesh) (plan : Plan) (ax : Axis) (retire : Bool) :
    ∀ (inputs doc : List Frag) (next : ℕ),
      (∀ W ∈ inputs, W.fid < next) →
      (axisPhase src plan ax retire inputs doc next).2.2
          = next + inputs.length * (plan.locs ax).length ∧
      (axisPhase src plan ax retire inputs doc next).1.length
          = inputs.length * (plan.locs ax).length ∧
      (∀ o ∈ (axisPhase src plan ax retire inputs doc next).1,
          containsMarker o.name = true ∧ next ≤ o.fid ∧
            o.fid < next + inputs.length * (plan.locs ax).length) ∧
      (axisPhase src plan ax retire inputs doc next).2.1
          = (if retire then
               doc.filter (fun o => !((inputs.map Frag.fid).contains o.fid))
             else doc)
            ++ (axisPhase src plan ax retire inputs doc next).1 := by
  intro inputs
  induction inputs with
  | nil =>
    intro doc next hin
    refine ⟨by simp [axisPhase], by simp [axisPhase], by simp [axisPhase], ?_⟩
    cases retire <;> simp [axisPhase]
  | cons W rest ih =>
    intro doc next hin
    have hWn : W.fid < next := hin W (List.mem_cons_self W rest)
    have hk := fragsFor_length src plan ax W next
    set k := (plan.locs ax).length with hkdef
    set fr := fragsFor src plan ax W next with hfr
    set doc2 := if retire then removeFid (doc ++ fr) W.fid else doc ++ fr with hdoc2
    have hinr : ∀ o ∈ rest, o.fid < next + fr.length := fun o hm =>
      lt_of_lt_of_le (hin o (List.mem_cons_of_mem _ hm)) (Nat.le_add_right _ _)
    obtain ⟨ihn, ihl, ihm, ihd⟩ := ih doc2 (next + fr.length) hinr
    have hstep : axisPhase src plan ax retire (W :: rest) doc next =
        (fr ++ (axisPhase src plan ax retire rest doc2 (next + fr.length)).1,
          (axisPhase src plan ax retire rest doc2 (next + fr.length)).2) := by
      rw [axisPhase]
    rw [hstep]
    set res := axisPhase src plan ax retire rest doc2 (next + fr.length) with hres
    have hfrmem := fragsFor_mem src plan ax W next
    refine ⟨?_, ?_, ?_, ?_⟩
    · show res.2.2 = next + (W :: rest).length * k
      rw [ihn, hk, List.length_cons, Nat.succ_mul]
      omega
    · show (fr ++ res.1).length = (W :: rest).length * k
      rw [List.length_append, ihl, hk, List.length_cons, Nat.succ_mul]
      omega
    · intro o ho
      rcases List.mem_append.mp ho with hof | hor
      · obtain ⟨hm1, hm2, hm3⟩ := hfrmem o hof
        rw [← hkdef] at hm3
        refine ⟨hm1, hm2, ?_⟩
        rw [List.length_cons, Nat.succ_mul]
        omega
      · obtain ⟨hm1, hm2, hm3⟩ := ihm o hor
        rw [hk] at hm2 hm3
        refine ⟨hm1, by omega, ?_⟩
        rw [List.length_cons, Nat.succ_mul]
        omega
    · show res.2.1 = _ ++ (fr ++ res.1)
      rw [ihd]
      cases retire with
      | false =>
        simp only [if_false, Bool.false_eq_true]
        rw [hdoc2]
        simp only [if_false, Bool.false_eq_true]
        rw [List.append_assoc]
      | true =>
        simp only [if_true]
        have hfr_lo : ∀ o ∈ fr, next ≤ o.fid := fun o ho => (hfrmem o ho).2.1
        have hdoc2t : doc2 = doc.filter (fun o => decide (o.fid ≠ W.fid)) ++ fr := by
          rw [hdoc2, if_pos rfl]
          unfold removeFid
          rw [List.filter_append]
          congr 1
          rw [List.filter_eq_self]
          intro o ho
          have := hfr_lo o ho
          simp
          omega
        rw [hdoc2t, List.filter_append]
        have hin_rest : ∀ o ∈ rest, o.fid < next := fun o hm =>
          hin o (List.mem_cons_of_mem _ hm)
        have hfr_rest : fr.filter (fun o => !((rest.map Frag.fid).contains o.fid)) = fr := by
          rw [List.filter_eq_self]
          intro o ho
          rw [not_contains_fid rest next hin_rest o.fid (hfr_lo o ho)]
          rfl
        rw [hfr_rest, List.filter_filter, List.append_assoc]
        congr 1
        apply List.filter_congr
        intro o homem
        rw [List.map_cons, List.contains_cons]
        by_cases he : o.fid = W.fid <;> simp [he]


lemma filter_fid0_nil_of_pos (l : List Frag) (hl : ∀ o ∈ l, 1 ≤ o.fid) :
    l.filter (fun o => o.fid == 0) = [] := by
  rw [List.filter_eq_nil_iff]
  intro o ho
  have := hl o ho
  simp
  omega

lemma filter_fid0_cons (og : Frag) (l : List Frag) (hog : og.fid = 0)
    (hl : ∀ o ∈ l, 1 ≤ o.fid) :
    (og :: l).filter (fun o => o.fid == 0) = [og] := by
  have h2 := filter_fid0_nil_of_pos l hl
  simp [List.filter_cons, hog, h2]

lemma filter_marker_all (l : List Frag) (hl : ∀ o ∈ l, containsMarker o.name = true) :
    l.filter (fun o => containsMarker o.name) = l := List.filter_eq_self.mpr hl

lemma filter_marker_cons (og : Frag) (l : List Frag)
    (hog : containsMarker og.name = false)
    (hl : ∀ o ∈ l, containsMarker o.name = true) :
    (og :: l).filter (fun o => containsMarker o.name) = l := by
  have h2 := filter_marker_all l hl
  simp [List.filter_cons, hog, h2]

lemma map_rHO_fresh (l : List Frag) (hl : ∀ o ∈ l, 1 ≤ o.fid) :
    l.map renameHideOrig = l := by
  have h : l.map renameHideOrig = l.map id :=
    List.map_congr_left (fun o ho => by
      unfold renameHideOrig
      rw [if_neg (by have := hl o ho; omega)]
      rfl)
  rw [h, List.map_id]

lemma filter_not_contains_self (l : List Frag) :
    l.filter (fun o => !((l.map Frag.fid).contains o.fid)) = [] := by
  rw [List.filter_eq_nil_iff]
  intro o ho
  rw [contains_fid_of_mem l o ho]
  simp

lemma filter_not_contains_cons (og : Frag) (l : List Frag) (hog : og.fid = 0)
    (hl : ∀ o ∈ l, 1 ≤ o.fid) :
    (og :: l).filter (fun o => !((l.map Frag.fid).contains o.fid)) = [og] := by
  have hcond : (!((l.map Frag.fid).contains og.fid)) = true := by
    rw [hog, not_contains_fid_zero l hl]
    rfl
  rw [@List.filter_cons_of_pos Frag (fun o => !((l.map Frag.fid).contains o.fid))
      og l hcond, filter_not_contains_self l]

lemma filter_not_contains_single (og : Frag) :
    [og].filter (fun o => !(([og].map Frag.fid).contains o.fid)) = [] := by
  simp [List.contains_cons]

lemma band_ne_zero {b : Bool} {l : List ℚ} (h : (b && !l.isEmpty) = true) :
    l.length ≠ 0 := by
  rw [Bool.and_eq_true] at h
  have h2 := h.2
  intro hlen
  rw [List.length_eq_zero.mp hlen] at h2
  exact absurd h2 (by decide)

lemma isEmpty_false_of_len {l : List Frag} {n : ℕ} (h : l.length = n) (hn : n ≠ 0) :
    l.isEmpty = false := by
  rw [List.isEmpty_eq_false]
  intro hnil
  rw [hnil] at h
  simp at h
  omega

lemma origFrag_fid (nm : List Char) (m : Mesh) : (origFrag nm m).fid = 0 := rfl

lemma rHO_orig (nm : List Char) (m : Mesh) : renameHideOrig (origFrag nm m) =
    { fid := 0, name := slicedOriginalName, mesh := m, hidden := true } := rfl

/-- Characterization of the three phases: whether the original survives (and
    in which state), and how many marker-named fragments the document holds
    when it enters cleanup. -/
lemma runPhases_spec (c : Config) (plan : Plan) (nm : List Char) (m : Mesh)
    (hnm : containsMarker nm = false) :
    (runPhases c plan nm m).filter (fun o => o.fid == 0)
        = (if (c.x && !(plan.locs Axis.x).isEmpty)
              || (!(c.y && !(plan.locs Axis.y).isEmpty)
                  && !(c.z && !(plan.locs Axis.z).isEmpty))
           then [if c.x then renameHideOrig (origFrag nm m) else origFrag nm m]
           else []) ∧
    ((runPhases c plan nm m).filter (fun o => containsMarker o.name)).length
        = (if (c.x && !(plan.locs Axis.x).isEmpty)
              || (c.y && !(plan.locs Axis.y).isEmpty)
              || (c.z && !(plan.locs Axis.z).isEmpty)
           then (if c.x && !(plan.locs Axis.x).isEmpty
                 then (plan.locs Axis.x).length else 1)
              * (if c.y && !(plan.locs Axis.y).isEmpty
                 then (plan.locs Axis.y).length else 1)
              * (if c.z && !(plan.locs Axis.z).isEmpty
                 then (plan.locs Axis.z).length else 1)
           else 0) := by
  have hogU_fid : (renameHideOrig (origFrag nm m)).fid = 0 := by
    rw [rHO_orig]
  have hogU_mark : containsMarker (renameHideOrig (origFrag nm m)).name = false := by
    rw [rHO_orig]
    exact notMarker_slicedOriginal
  set og := (if c.x then renameHideOrig (origFrag nm m) else origFrag nm m) with hog
  have hog_fid : og.fid = 0 := by
    rw [hog]
    by_cases h : c.x = true
    · rw [if_pos h]
      exact hogU_fid
    · rw [if_neg h]
      exact origFrag_fid nm m
  have hog_mark : containsMarker og.name = false := by
    rw [hog]
    by_cases h : c.x = true
    · rw [if_pos h]
      exact hogU_mark
    · rw [if_neg h]
      exact hnm
  have hogin : ∀ W ∈ [og], W.fid < 1 := by
    intro W hW
    rw [List.mem_singleton] at hW
    subst hW
    omega
  have hxin : ∀ W ∈ [origFrag nm m], W.fid < 1 := by
    intro W hW
    rw [List.mem_singleton] at hW
    subst hW
    exact Nat.zero_lt_one
  have hfold : (if c.x = true
        then List.map renameHideOrig [origFrag nm m] else [origFrag nm m]) = [og] := by
    rw [hog]
    by_cases h : c.x = true
    · rw [if_pos h, if_pos h]
      rfl
    · rw [if_neg h, if_neg h]
  cases hbx : (c.x && !(plan.locs Axis.x).isEmpty) with
  | true =>
    have hcx : c.x = true := by
      have h := hbx
      rw [Bool.and_eq_true] at h
      exact h.1
    have hkx0 := band_ne_zero hbx
    have hogx : og = renameHideOrig (origFrag nm m) := by rw [hog, if_pos hcx]
    obtain ⟨pxn, pxl, pxm, pxd⟩ := axisPhase_spec m plan Axis.x false
      [origFrag nm m] [origFrag nm m] 1 hxin
    simp only [Bool.false_eq_true, if_false, List.singleton_append] at pxd
    simp only [List.length_cons, List.length_nil, Nat.zero_add] at pxn pxl pxm
    have hfreshx : ∀ o ∈ (axisPhase m plan Axis.x false
        [origFrag nm m] [origFrag nm m] 1).1, 1 ≤ o.fid :=
      fun o ho => (pxm o ho).2.1
    have hsx := isEmpty_false_of_len pxl (by omega)
    cases hby : (c.y && !(plan.locs Axis.y).isEmpty) with
    | true =>
      have hky0 := band_ne_zero hby
      obtain ⟨pyn, pyl, pym, pyd⟩ := axisPhase_spec m plan Axis.y true
        (axisPhase m plan Axis.x false [origFrag nm m] [origFrag nm m] 1).1
        (renameHideOrig (origFrag nm m)
          :: (axisPhase m plan Axis.x false [origFrag nm m] [origFrag nm m] 1).1)
        (1 + 1 * (plan.locs Axis.x).length)
        (fun W hW => (pxm W hW).2.2)
      simp only [if_true] at pyd
      rw [filter_not_contains_cons _ _ hogU_fid hfreshx, List.singleton_append] at pyd
      have hfreshy : ∀ o ∈ (axisPhase m plan Axis.y true
          (axisPhase m plan Axis.x false [origFrag nm m] [origFrag nm m] 1).1
          (renameHideOrig (origFrag nm m)
            :: (axisPhase m plan Axis.x false [origFrag nm m] [origFrag nm m] 1).1)
          (1 + 1 * (plan.locs Axis.x).length)).1, 1 ≤ o.fid :=
        fun o ho => by
          have := (pym o ho).2.1
          omega
      have hsy := isEmpty_false_of_len pyl
        (by rw [pxl]
            exact Nat.mul_ne_zero (by omega) hky0)
      cases hbz : (c.z && !(plan.locs Axis.z).isEmpty) with
      | true =>
        obtain ⟨pzn, pzl, pzm, pzd⟩ := axisPhase_spec m plan Axis.z true
          (axisPhase m plan Axis.y true
            (axisPhase m plan Axis.x false [origFrag nm m] [origFrag nm m] 1).1
            (renameHideOrig (origFrag nm m)
              :: (axisPhase m plan Axis.x false [origFrag nm m] [origFrag nm m] 1).1)
            (1 + 1 * (plan.locs Axis.x).length)).1
          (renameHideOrig (origFrag nm m)
            :: (axisPhase m plan Axis.y true
              (axisPhase m plan Axis.x false [origFrag nm m] [origFrag nm m] 1).1
              (renameHideOrig (origFrag nm m)
                :: (axisPhase m plan Axis.x false [origFrag nm m] [origFrag nm m] 1).1)
              (1 + 1 * (plan.locs Axis.x).length)).1)
          (1 + 1 * (plan.locs Axis.x).length
            + (axisPhase m plan Axis.x false [origFrag nm m] [origFrag nm m] 1).1.length
              * (plan.locs Axis.y).length)
          (fun W hW => (pym W hW).2.2)
        simp only [if_true] at pzd
        rw [filter_not_contains_cons _ _ hogU_fid hfreshy, List.singleton_append] at pzd
        have hrun : runPhases c plan nm m =
            renameHideOrig (origFrag nm m) :: (axisPhase m plan Axis.z true
            (axisPhase m plan Axis.y true
              (axisPhase m plan Axis.x false [origFrag nm m] [origFrag nm m] 1).1
              (renameHideOrig (origFrag nm m)
                :: (axisPhase m plan Axis.x false [origFrag nm m] [origFrag nm m] 1).1)
              (1 + 1 * (plan.locs Axis.x).length)).1
            (renameHideOrig (origFrag nm m)
              :: (axisPhase m plan Axis.y true
                (axisPhase m plan Axis.x false [origFrag nm m] [origFrag nm m] 1).1
                (renameHideOrig (origFrag nm m)
                  :: (axisPhase m plan Axis.x false [origFrag nm m] [origFrag nm m] 1).1)
                (1 + 1 * (plan.locs Axis.x).length)).1)
            (1 + 1 * (plan.locs Axis.x).length
              + (axisPhase m plan Axis.x false [origFrag nm m] [origFrag nm m] 1).1.length
                * (plan.locs Axis.y).length)).1 := by
          rw [runPhases]
          simp only [hbx, hby, hbz, hsx, eq_self_iff_true, if_true,
            Bool.false_eq_true, if_false, List.isEmpty_nil]
          simp only [hcx, eq_self_iff_true, if_true]
          rw [pxd, List.map_cons, map_rHO_fresh _ hfreshx, pxn, hsy]
          simp only [Bool.false_eq_true, if_false]
          rw [pyd, pyn, pzd]
        constructor
        · rw [hrun, filter_fid0_cons _ _ hogU_fid
            (fun o ho => by have := (pzm o ho).2.1; omega)]
          simp only [hbx, Bool.true_or, eq_self_iff_true, if_true]
          rw [hogx]
        · rw [hrun, filter_marker_cons _ _ hogU_mark (fun o ho => (pzm o ho).1),
            pzl, pyl, pxl]
          simp only [hbx, hby, hbz, Bool.true_or, eq_self_iff_true, if_true]
          try ring
      | false =>
        have hrun : runPhases c plan nm m =
            renameHideOrig (origFrag nm m) ::
            (axisPhase m plan Axis.y true
              (axisPhase m plan Axis.x false [origFrag nm m] [origFrag nm m] 1).1
              (renameHideOrig (origFrag nm m)
                :: (axisPhase m plan Axis.x false [origFrag nm m] [origFrag nm m] 1).1)
              (1 + 1 * (plan.locs Axis.x).length)).1 := by
          rw [runPhases]
          simp only [hbx, hby, hbz, hsx, eq_self_iff_true, if_true,
            Bool.false_eq_true, if_false, List.isEmpty_nil]
          simp only [hcx, eq_self_iff_true, if_true]
          rw [pxd, List.map_cons, map_rHO_fresh _ hfreshx, pxn]
          rw [pyd]
        constructor
        · rw [hrun, filter_fid0_cons _ _ hogU_fid hfreshy]
          simp only [hbx, Bool.true_or, eq_self_iff_true, if_true]
          rw [hogx]
        · rw [hrun, filter_marker_cons _ _ hogU_mark (fun o ho => (pym o ho).1),
            pyl, pxl]
          simp only [hbx, hby, hbz, Bool.true_or, Bool.or_false,
            Bool.false_eq_true, eq_self_iff_true, if_true, if_false]
          try ring
    | false =>
      cases hbz : (c.z && !(plan.locs Axis.z).isEmpty) with
      | true =>
        obtain ⟨pzn, pzl, pzm, pzd⟩ := axisPhase_spec m plan Axis.z true
          (axisPhase m plan Axis.x false [origFrag nm m] [origFrag nm m] 1).1
          (renameHideOrig (origFrag nm m)
            :: (axisPhase m plan Axis.x false [origFrag nm m] [origFrag nm m] 1).1)
          (1 + 1 * (plan.locs Axis.x).length)
          (fun W hW => (pxm W hW).2.2)
        simp only [if_true] at pzd
        rw [filter_not_contains_cons _ _ hogU_fid hfreshx, List.singleton_append] at pzd
        have hrun : runPhases c plan nm m =
            renameHideOrig (origFrag nm m) :: (axisPhase m plan Axis.z true
            (axisPhase m plan Axis.x false [origFrag nm m] [origFrag nm m] 1).1
            (renameHideOrig (origFrag nm m)
              :: (axisPhase m plan Axis.x false [origFrag nm m] [origFrag nm m] 1).1)
            (1 + 1 * (plan.locs Axis.x).length)).1 := by
          rw [runPhases]
          simp only [hbx, hby, hbz, hsx, eq_self_iff_true, if_true,
            Bool.false_eq_true, if_false, List.isEmpty_nil]
          simp only [hcx, eq_self_iff_true, if_true]
          rw [pxd, List.map_cons, map_rHO_fresh _ hfreshx, pxn]
          rw [pzd]
        constructor
        · rw [hrun, filter_fid0_cons _ _ hogU_fid
            (fun o ho => by have := (pzm o ho).2.1; omega)]
          simp only [hbx, Bool.true_or, eq_self_iff_true, if_true]
          rw [hogx]
        · rw [hrun, filter_marker_cons _ _ hogU_mark (fun o ho => (pzm o ho).1),
            pzl, pxl]
          simp only [hbx, hby, hbz, Bool.true_or, Bool.or_false,
            Bool.false_eq_true, eq_self_iff_true, if_true, if_false]
          try ring
      | false =>
        have hrun : runPhases c plan nm m =
            renameHideOrig (origFrag nm m) ::
            (axisPhase m plan Axis.x false [origFrag nm m] [origFrag nm m] 1).1 := by
          rw [runPhases]
          simp only [hbx, hby, hbz, hsx, eq_self_iff_true, if_true,
            Bool.false_eq_true, if_false, List.isEmpty_nil]
          simp only [hcx, eq_self_iff_true, if_true]
          rw [pxd, List.map_cons, map_rHO_fresh _ hfreshx]
        constructor
        · rw [hrun, filter_fid0_cons _ _ hogU_fid hfreshx]
          simp only [hbx, Bool.true_or, eq_self_iff_true, if_true]
          rw [hogx]
        · rw [hrun, filter_marker_cons _ _ hogU_mark (fun o ho => (pxm o ho).1), pxl]
          simp only [hbx, hby, hbz, Bool.true_or, Bool.or_false,
            Bool.false_eq_true, eq_self_iff_true, if_true, if_false]
          try ring
  | false =>
    cases hby : (c.y && !(plan.locs Axis.y).isEmpty) with
    | true =>
      have hky0 := band_ne_zero hby
      obtain ⟨pyn, pyl, pym, pyd⟩ := axisPhase_spec m plan Axis.y true
        [og] [og] 1 hogin
      simp only [List.length_cons, List.length_nil, Nat.zero_add] at pyn pyl pym
      simp only [if_true] at pyd
      rw [filter_not_contains_single og, List.nil_append] at pyd
      have hfreshy : ∀ o ∈ (axisPhase m plan Axis.y true [og] [og] 1).1,
          1 ≤ o.fid := fun o ho => (pym o ho).2.1
      have hsy := isEmpty_false_of_len pyl (by omega)
      cases hbz : (c.z && !(plan.locs Axis.z).isEmpty) with
      | true =>
        obtain ⟨pzn, pzl, pzm, pzd⟩ := axisPhase_spec m plan Axis.z true
          (axisPhase m plan Axis.y true [og] [og] 1).1
          (axisPhase m plan Axis.y true [og] [og] 1).1
          (1 + 1 * (plan.locs Axis.y).length)
          (fun W hW => (pym W hW).2.2)
        simp only [if_true] at pzd
        rw [filter_not_contains_self, List.nil_append] at pzd
        have hrun : runPhases c plan nm m = (axisPhase m plan Axis.z true
            (axisPhase m plan Axis.y true [og] [og] 1).1
            (axisPhase m plan Axis.y true [og] [og] 1).1
            (1 + 1 * (plan.locs Axis.y).length)).1 := by
          rw [runPhases]
          simp only [hbx, hby, hbz, Bool.false_eq_true, if_false,
            eq_self_iff_true, if_true, List.isEmpty_nil]
          rw [hfold, ← hog, pyd, pyn, hsy]
          simp only [Bool.false_eq_true, if_false]
          rw [pzd]
        constructor
        · rw [hrun, filter_fid0_nil_of_pos _
            (fun o ho => by have := (pzm o ho).2.1; omega)]
          simp only [hbx, hby, hbz, Bool.false_eq_true, Bool.false_or,
            Bool.not_true, Bool.false_and, if_false]
        · rw [hrun, filter_marker_all _ (fun o ho => (pzm o ho).1), pzl, pyl]
          simp only [hbx, hby, hbz, Bool.false_eq_true, if_false,
            eq_self_iff_true, if_true, Bool.false_or, Bool.true_or]
          try ring
      | false =>
        have hrun : runPhases c plan nm m =
            (axisPhase m plan Axis.y true [og] [og] 1).1 := by
          rw [runPhases]
          simp only [hbx, hby, hbz, Bool.false_eq_true, if_false,
            eq_self_iff_true, if_true, List.isEmpty_nil]
          rw [hfold, ← hog, pyd]
        constructor
        · rw [hrun, filter_fid0_nil_of_pos _ hfreshy]
          simp only [hbx, hby, hbz, Bool.false_eq_true, Bool.false_or,
            Bool.not_true, Bool.false_and, if_false]
        · rw [hrun, filter_marker_all _ (fun o ho => (pym o ho).1), pyl]
          simp only [hbx, hby, hbz, Bool.false_eq_true, if_false,
            eq_self_iff_true, if_true, Bool.false_or, Bool.or_false]
          try ring
    | false =>
      cases hbz : (c.z && !(plan.locs Axis.z).isEmpty) with
      | true =>
        obtain ⟨pzn, pzl, pzm, pzd⟩ := axisPhase_spec m plan Axis.z true
          [og] [og] 1 hogin
        simp only [List.length_cons, List.length_nil, Nat.zero_add] at pzn pzl pzm
        simp only [if_true] at pzd
        rw [filter_not_contains_single og, List.nil_append] at pzd
        have hrun : runPhases c plan nm m =
            (axisPhase m plan Axis.z true [og] [og] 1).1 := by
          rw [runPhases]
          simp only [hbx, hby, hbz, Bool.false_eq_true, if_false,
            eq_self_iff_true, if_true, List.isEmpty_nil]
          rw [hfold, ← hog, pzd]
        constructor
        · rw [hrun, filter_fid0_nil_of_pos _ (fun o ho => (pzm o ho).2.1)]
          simp only [hbx, hby, hbz, Bool.false_eq_true, Bool.false_or,
            Bool.not_false, Bool.not_true, Bool.and_false, if_false]
        · rw [hrun, filter_marker_all _ (fun o ho => (pzm o ho).1), pzl]
          simp only [hbx, hby, hbz, Bool.false_eq_true, if_false,
            eq_self_iff_true, if_true, Bool.false_or]
          try ring
      | false =>
        have hrun : runPhases c plan nm m = [og] := by
          rw [runPhases]
          simp only [hbx, hby, hbz, Bool.false_eq_true, if_false,
            List.isEmpty_nil, eq_self_iff_true, if_true]
          rw [hfold]
        constructor
        · rw [hrun, filter_fid0_cons _ _ hog_fid (by intro o ho; cases ho)]
          simp only [hbx, hby, hbz, Bool.false_eq_true, Bool.false_or,
            Bool.not_false, Bool.and_self, if_true]
        · rw [hrun, filter_marker_cons _ _ hog_mark (by intro o ho; cases ho)]
          simp only [hbx, hby, hbz, Bool.false_eq_true, Bool.false_or, if_false,
            List.length_nil]

/-- Claim C1 as amended: one axis cascade emits exactly one fragment per cut
    coordinate of the axis plan for each input object (first conjunct), and
    the number of fragments entering finalization equals the product of the
    plan lengths of the selected axes that actually have cuts, or 0 when no
    selected axis has any cut; a selected axis with an empty plan passes the
    previous fragment set through as factor 1. -/
theorem C1_theorem (c : Config) (plan : Plan) (nm : List Char) (m : Mesh)
    (hnm : containsMarker nm = false) :
    (∀ (src : Mesh) (ax : Axis) (W : Frag) (base : ℕ),
        (fragsFor src plan ax W base).length = (plan.locs ax).length) ∧
    ((runPhases c plan nm m).filter (fun o => containsMarker o.name)).length
        = (if (c.x && !(plan.locs Axis.x).isEmpty)
              || (c.y && !(plan.locs Axis.y).isEmpty)
              || (c.z && !(plan.locs Axis.z).isEmpty)
           then (if c.x && !(plan.locs Axis.x).isEmpty
                 then (plan.locs Axis.x).length else 1)
              * (if c.y && !(plan.locs Axis.y).isEmpty
                 then (plan.locs Axis.y).length else 1)
              * (if c.z && !(plan.locs Axis.z).isEmpty
                 then (plan.locs Axis.z).length else 1)
           else 0) :=
  ⟨fun src ax W base => fragsFor_length src plan ax W base,
   (runPhases_spec c plan nm m hnm).2⟩

/-- Witness for C1: on the sample mesh slicing only x in RELATIVE mode, the
    product formula evaluates to 3 fragments entering finalization. -/
theorem C1_witness :
    containsMarker cubeName = false ∧
    ((runPhases cfgX (planOfD cfgX starMesh) cubeName starMesh).filter
        (fun o => containsMarker o.name)).length = 3 :=
  ⟨by decide, by
    rw [(C1_theorem cfgX (planOfD cfgX starMesh) cubeName starMesh (by decide)).2]
    decide⟩

/-- The state of the original when it survives the run. -/
lemma og_mark_false (c : Config) (nm : List Char) (m : Mesh)
    (hnm : containsMarker nm = false) :
    containsMarker
      (if c.x then renameHideOrig (origFrag nm m) else origFrag nm m).name = false := by
  by_cases h : c.x = true
  · rw [if_pos h, rHO_orig]
    exact notMarker_slicedOriginal
  · rw [if_neg h]
    exact hnm

/-- The rename pass touches only marker-named objects and never ids, so the
    id-0 filter of its output equals that of its input whenever every id-0
    object is not marker-named. -/
lemma renameIn_filter_fid0 (base : List Char) :
    ∀ (k : ℕ) (l : List Frag),
      (∀ o ∈ l, o.fid = 0 → containsMarker o.name = false) →
      (renameIn base k l).filter (fun o => o.fid == 0)
        = l.filter (fun o => o.fid == 0) := by
  intro k l
  induction l generalizing k with
  | nil => intro h; simp [renameIn]
  | cons o rest ih =>
    intro h
    have hrest : ∀ o2 ∈ rest, o2.fid = 0 → containsMarker o2.name = false :=
      fun o2 ho2 => h o2 (List.mem_cons_of_mem _ ho2)
    by_cases hm : containsMarker o.name = true
    · have hstep : renameIn base k (o :: rest) =
          { o with name := (final_name base (k + 1)) } :: renameIn base (k + 1) rest := by
        simp [renameIn, hm]
      have hfid : o.fid ≠ 0 := by
        intro h0
        rw [h o (List.mem_cons_self o rest) h0] at hm
        cases hm
      rw [hstep, List.filter_cons_of_neg (by simp [hfid]),
        List.filter_cons_of_neg (by simp [hfid]), ih (k + 1) hrest]
    · have hstep : renameIn base k (o :: rest) = o :: renameIn base k rest := by
        simp [renameIn, hm]
      rw [hstep]
      by_cases h0 : o.fid = 0
      · rw [List.filter_cons_of_pos (by simp [h0]),
          List.filter_cons_of_pos (by simp [h0]), ih k hrest]
      · rw [List.filter_cons_of_neg (by simp [h0]),
          List.filter_cons_of_neg (by simp [h0]), ih k hrest]

/-- The discard pass never removes an id-0 object that is not marker-named. -/
lemma filter_keep_fid0 (c : Config) (doc : List Frag)
    (h : ∀ o ∈ doc, o.fid = 0 → containsMarker o.name = false) :
    (doc.filter (fun o => !(containsMarker o.name && delete_small_check c o))).filter
        (fun o => o.fid == 0)
      = doc.filter (fun o => o.fid == 0) := by
  rw [List.filter_filter]
  apply List.filter_congr
  intro o ho
  by_cases h0 : o.fid = 0
  · rw [h o ho h0]
    simp [h0]
  · simp [h0]

/-- Cleanup preserves the id-0 content of the document when id-0 objects are
    not marker-named. -/
lemma cleanup_filter_fid0 (c : Config) (origName : List Char) (doc : List Frag)
    (h : ∀ o ∈ doc, o.fid = 0 → containsMarker o.name = false) :
    (cleanup_objs c origName doc).filter (fun o => o.fid == 0)
      = doc.filter (fun o => o.fid == 0) := by
  unfold cleanup_objs
  rw [renameIn_filter_fid0 _ 0 _ (fun o ho => h o (List.mem_of_mem_filter ho)),
    filter_keep_fid0 c doc h]

/-- A retiring cascade (the per-input unlink of slice_y and slice_z) detaches
    every input it consumes: no consumed input object remains in the document
    the phase returns. -/
lemma axisPhase_retire_not_mem (src : Mesh) (plan : Plan) (ax : Axis)
    (inputs doc : List Frag) (next : ℕ)
    (hin : ∀ W ∈ inputs, W.fid < next) :
    ∀ W ∈ inputs, W ∉ (axisPhase src plan ax true inputs doc next).2.1 := by
  obtain ⟨-, -, hm, hd⟩ := axisPhase_spec src plan ax true inputs doc next hin
  simp only [if_true] at hd
  intro W hW hWin
  rw [hd] at hWin
  rcases List.mem_append.mp hWin with h1 | h2
  · have hp := (List.mem_filter.mp h1).2
    rw [contains_fid_of_mem inputs W hW] at hp
    exact absurd hp (by decide)
  · have hge := (hm W h2).2.1
    have hlt := hin W hW
    omega

/-- Claim C5 as amended: on a run that reaches the phases, the final document
    retains the original object (id 0) exactly when axis x is selected with a
    nonempty x plan, or no other selected axis has a nonempty plan; when
    retained it is hidden and renamed to Sliced_Original exactly when axis x
    is selected, and is untouched otherwise; in every other configuration the
    original has been unlinked by the cascade that consumed it.  Third
    conjunct: every intermediate input a retiring cascade of this run (a y or
    z phase over the run mesh and plan) consumes is unlinked, absent from the
    document that cascade returns. -/
theorem C5_theorem (c : Config) (nm : List Char) (m : Mesh) (plan : Plan)
    (hp : get_slice_locs c m = Except.ok plan)
    (hgate : c.force = true ∨ mesh_has_manifold_geom m = true)
    (hax : ¬ num_axes_selected c = 0)
    (hnm : containsMarker nm = false) :
    isFinished (execute c nm m) = true ∧
    ((finalDoc (execute c nm m)).filter (fun o => o.fid == 0)
      = (if (c.x && !(plan.locs Axis.x).isEmpty)
            || (!(c.y && !(plan.locs Axis.y).isEmpty)
                && !(c.z && !(plan.locs Axis.z).isEmpty))
         then [if c.x then renameHideOrig (origFrag nm m) else origFrag nm m]
         else [])) ∧
    (∀ (ax : Axis) (inputs doc2 : List Frag) (next : ℕ),
      (∀ W ∈ inputs, W.fid < next) →
      ∀ W ∈ inputs, W ∉ (axisPhase m plan ax true inputs doc2 next).2.1) := by
  have hex : execute c nm m =
      Outcome.finished (cleanup_objs c nm (runPhases c plan nm m)) := by
    unfold execute
    rw [hp]
    rcases hgate with h | h <;> simp [h, hax]
  obtain ⟨h1, _⟩ := runPhases_spec c plan nm m hnm
  have hmarkers : ∀ o ∈ runPhases c plan nm m,
      o.fid = 0 → containsMarker o.name = false := by
    intro o ho h0
    have hmem : o ∈ (runPhases c plan nm m).filter (fun o => o.fid == 0) :=
      List.mem_filter.mpr ⟨ho, by simp [h0]⟩
    rw [h1] at hmem
    by_cases hc : ((c.x && !(plan.locs Axis.x).isEmpty)
        || (!(c.y && !(plan.locs Axis.y).isEmpty)
            && !(c.z && !(plan.locs Axis.z).isEmpty))) = true
    · rw [if_pos hc, List.mem_singleton] at hmem
      subst hmem
      exact og_mark_false c nm m hnm
    · rw [if_neg hc] at hmem
      cases hmem
  refine ⟨by rw [hex]; rfl, ?_,
    fun ax inputs doc2 next hin =>
      axisPhase_retire_not_mem m plan ax inputs doc2 next hin⟩
  rw [hex]
  simp only [finalDoc]
  rw [cleanup_filter_fid0 c nm _ hmarkers, h1]

/-- Witness for C5: slicing only x on the sample mesh finishes with the
    original retained, hidden and renamed to Sliced_Original; and a concrete
    retiring cascade of that run leaves its consumed input out of the
    returned document. -/
theorem C5_witness :
    get_slice_locs cfgX starMesh = Except.ok (planOfD cfgX starMesh) ∧
    mesh_has_manifold_geom starMesh = true ∧
    ¬ num_axes_selected cfgX = 0 ∧
    containsMarker cubeName = false ∧
    (isFinished (execute cfgX cubeName starMesh) = true ∧
      (finalDoc (execute cfgX cubeName starMesh)).filter (fun o => o.fid == 0)
        = (if (cfgX.x && !((planOfD cfgX starMesh).locs Axis.x).isEmpty)
              || (!(cfgX.y && !((planOfD cfgX starMesh).locs Axis.y).isEmpty)
                  && !(cfgX.z && !((planOfD cfgX starMesh).locs Axis.z).isEmpty))
           then [if cfgX.x then renameHideOrig (origFrag cubeName starMesh)
                 else origFrag cubeName starMesh]
           else [])) ∧
    (origFrag cubeName starMesh) ∉
      (axisPhase starMesh (planOfD cfgX starMesh) Axis.y true
        [origFrag cubeName starMesh] [origFrag cubeName starMesh] 1).2.1 := by
  have h := C5_theorem cfgX cubeName starMesh (planOfD cfgX starMesh) rfl
    (Or.inr rfl) (by decide) (by decide)
  exact ⟨rfl, rfl, by decide, by decide, ⟨h.1, h.2.1⟩,
    h.2.2 Axis.y [origFrag cubeName starMesh] [origFrag cubeName starMesh] 1
      (by decide) (origFrag cubeName starMesh) (by decide)⟩

end ChunkSlicer
